import Mathlib

/-!
Verification of the indicator computation and condition-evaluation engine of
the TAPP trading-alert backend.

The numeric code (`IndicatorsService.calculateManualEMA`,
`IndicatorsService.calculateManualMACD`), the comparators and the condition
evaluator (`ConditionsService` in both its 3-rule and 7-rule variants), the
statistics tracker (`updateStatistics`) and the adaptive historical-data
acquisition loop (`processAlertNormally`) are embedded shallowly, with
JavaScript numbers modelled as exact rationals and JavaScript
`null`/`undefined` modelled as `Option`.
-/

/-! ## EMA (IndicatorsService.calculateManualEMA) -/

/-- Shallow embedding of `calculateManualEMA(values, period)`:
return `null` when `values` is empty or shorter than `period`; otherwise seed
with the arithmetic mean of the first `period` values and recur forward with
multiplier `2/(period+1)`.  The seed-sum loop and the recursion loop are kept
as left folds, mirroring the two `for` loops of the source. -/
def calculateManualEMA (values : List ℚ) (period : ℕ) : Option ℚ :=
  if values.length = 0 then none
  else if values.length < period then none
  else
    let sum := (values.take period).foldl (fun s v => s + v) 0
    let ema := sum / (period : ℚ)
    let multiplier : ℚ := 2 / ((period : ℚ) + 1)
    some ((values.drop period).foldl
      (fun e v => v * multiplier + e * (1 - multiplier)) ema)

/-- The seed used by the reference definition in the spec: the arithmetic
mean of the first `period` values. -/
def emaSeed (values : List ℚ) (period : ℕ) : ℚ :=
  (values.take period).sum / (period : ℚ)

/-- Recursion of the reference definition: for each remaining value `v`,
`ema = v*a + ema*(1-a)`. -/
def emaSpecGo (a : ℚ) : List ℚ → ℚ → ℚ
  | [], e => e
  | v :: rest, e => emaSpecGo a rest (v * a + e * (1 - a))

/-- Reference EMA from the spec's words: seed with the simple average of the
first `period` values, then recur forward over indices `period..end` with
multiplier `a = 2/(period+1)`. -/
def emaSpec (values : List ℚ) (period : ℕ) : ℚ :=
  emaSpecGo (2 / ((period : ℚ) + 1)) (values.drop period) (emaSeed values period)

/-- The 40 ascending closes `[1, 2, ..., 40]` of the spec's scenario. -/
def closes40 : List ℚ := (List.range 40).map (fun n => (n : ℚ) + 1)

lemma foldl_add_eq_sum (l : List ℚ) : ∀ s : ℚ, l.foldl (fun s v => s + v) s = s + l.sum := by
  induction l with
  | nil => intro s; simp
  | cons v rest ih => intro s; simp [ih, add_assoc]

lemma emaSpecGo_eq_foldl (a : ℚ) (l : List ℚ) : ∀ e : ℚ,
    emaSpecGo a l e = l.foldl (fun e v => v * a + e * (1 - a)) e := by
  induction l with
  | nil => intro e; rfl
  | cons v rest ih => intro e; simp [emaSpecGo, ih]

/-- Shared helper: with a positive period, the EMA is `null` exactly on
too-short input. -/
lemma ema_none_iff (values : List ℚ) (period : ℕ) (hp : 1 ≤ period) :
    calculateManualEMA values period = none ↔ values.length < period := by
  unfold calculateManualEMA
  by_cases h0 : values.length = 0
  · simp only [h0, if_true, reduceIte]
    constructor
    · intro; omega
    · intro; trivial
  · by_cases hlt : values.length < period
    · simp [h0, hlt]
    · simp [h0, hlt]

/-- Shared helper: with a positive period and enough data, the EMA equals the
spec's reference recursion. -/
lemma ema_eq_spec (values : List ℚ) (period : ℕ) (hp : 1 ≤ period)
    (hlen : period ≤ values.length) :
    calculateManualEMA values period = some (emaSpec values period) := by
  have h0 : values.length ≠ 0 := by omega
  have hlt : ¬ values.length < period := by omega
  unfold calculateManualEMA emaSpec emaSeed
  simp only [h0, hlt, if_false, if_neg, Option.some.injEq]
  rw [emaSpecGo_eq_foldl]
  have hs : (values.take period).foldl (fun s v => s + v) 0 = (values.take period).sum := by
    simpa using foldl_add_eq_sum (values.take period) 0
  rw [hs]

/-- C1: `calculateManualEMA` equals the reference seeded-SMA EMA recursion for
every `period ≥ 1` and every list of at least `period` values; on the spec's
scenario `closes = [1..40]`, `period = 12`, the seed is `6.5` and the result
agrees with the reference recursion to within `1e-9` (here: exactly). -/
theorem ema_matches_reference :
    (∀ (values : List ℚ) (period : ℕ), 1 ≤ period → period ≤ values.length →
      calculateManualEMA values period = some (emaSpec values period)) ∧
    emaSeed closes40 12 = 13 / 2 ∧
    (∃ r : ℚ, calculateManualEMA closes40 12 = some r ∧
      |r - emaSpec closes40 12| ≤ 1 / 1000000000) := by
  refine ⟨fun values period hp hlen => ema_eq_spec values period hp hlen, ?_, ?_⟩
  · norm_num [emaSeed, closes40, List.range_succ]
  · refine ⟨emaSpec closes40 12,
      ema_eq_spec closes40 12 (by norm_num) (by decide), ?_⟩
    rw [sub_self, abs_zero]
    norm_num

/-- C1 witness: the general clause instantiated at `values = [3, 5]`,
`period = 1`. -/
theorem ema_matches_reference_witness :
    calculateManualEMA [(3 : ℚ), 5] 1 = some (emaSpec [(3 : ℚ), 5] 1) :=
  ema_matches_reference.1 [(3 : ℚ), 5] 1 (by norm_num) (by norm_num)

/-- C6 counterexample: at `values = []`, `period = 0` the code returns `null`
even though `len(values) < period` is false, so "undefined whenever
`len(values) < period`, defined otherwise" fails for `period = 0`. -/
theorem ema_defined_counterexample :
    calculateManualEMA [] 0 = none ∧ ¬ (([] : List ℚ).length < 0) := by
  constructor
  · rfl
  · decide

/-- C6 (amended): for every `period ≥ 1`, `calculateManualEMA values period`
is `null` exactly when `len(values) < period`, and defined (a rational, hence
finite) in every other case. -/
theorem ema_defined_iff (values : List ℚ) (period : ℕ) (hp : 1 ≤ period) :
    calculateManualEMA values period = none ↔ values.length < period :=
  ema_none_iff values period hp

/-- C6 witness: the amended claim instantiated at `values = [1, 2]`,
`period = 3`. -/
theorem ema_defined_iff_witness :
    (calculateManualEMA [(1 : ℚ), 2] 3 = none ↔ [(1 : ℚ), 2].length < 3) :=
  ema_defined_iff [(1 : ℚ), 2] 3 (by decide)

/-- C7: appending the current EMA value to the list leaves the EMA unchanged
(exactly, in rational arithmetic). -/
theorem ema_append_fixed_point (values : List ℚ) (period : ℕ) (hp : 1 ≤ period)
    (hlen : period ≤ values.length) (v : ℚ)
    (hv : calculateManualEMA values period = some v) :
    calculateManualEMA (values ++ [v]) period = some v := by
  have h0 : values.length ≠ 0 := by omega
  have hlt : ¬ values.length < period := by omega
  have h0' : (values ++ [v]).length ≠ 0 := by simp
  have hlt' : ¬ (values ++ [v]).length < period := by simp; omega
  unfold calculateManualEMA at hv ⊢
  simp only [h0, hlt, if_false, if_neg, Option.some.injEq] at hv
  simp only [h0', hlt', if_false, if_neg, Option.some.injEq]
  rw [List.take_append_of_le_length (by omega), List.drop_append_of_le_length (by omega)]
  rw [List.foldl_append, hv]
  simp only [List.foldl_cons, List.foldl_nil]
  ring

/-- C7 witness: `calculateManualEMA [1, 2] 1 = some 2`, and appending `2`
leaves the value `2`. -/
theorem ema_append_fixed_point_witness :
    calculateManualEMA ([(1 : ℚ), 2] ++ [2]) 1 = some 2 :=
  ema_append_fixed_point [(1 : ℚ), 2] 1 (by norm_num) (by norm_num) 2
    (by norm_num [calculateManualEMA])

/-! ## MACD (IndicatorsService.calculateManualMACD) -/

/-- The `{macd, signal, histogram}` triple returned by the MACD calculators. -/
structure MACDResult where
  macd : ℚ
  signal : ℚ
  histogram : ℚ
deriving DecidableEq

/-- The per-index EMA loop of `calculateManualMACD`: for each index `i`,
take the subset `closes[0..i]`; push its EMA when the subset is at least
`period` long, and `null` otherwise. -/
def emaSeries (closes : List ℚ) (period : ℕ) : List (Option ℚ) :=
  (List.range closes.length).map (fun i =>
    let closesSubset := closes.take (i + 1)
    if period ≤ closesSubset.length then calculateManualEMA closesSubset period
    else none)

/-- The MACD-line combination step: the difference where both EMAs are
non-null, `null` otherwise. -/
def macdCombine (f s : Option ℚ) : Option ℚ :=
  match f, s with
  | some x, some y => some (x - y)
  | _, _ => none

/-- Shallow embedding of `calculateManualMACD(closes, fast, slow, signal)`. -/
def calculateManualMACD (closes : List ℚ)
    (fastPeriod slowPeriod signalPeriod : ℕ) : Option MACDResult :=
  if closes.length = 0 then none
  else if closes.length < slowPeriod + signalPeriod then none
  else
    let emaFastValues := emaSeries closes fastPeriod
    let emaSlowValues := emaSeries closes slowPeriod
    let macdLineValues := List.zipWith macdCombine emaFastValues emaSlowValues
    match macdLineValues.getLast? with
    | none => none
    | some none => none
    | some (some latestMacdLine) =>
      let validMacdValues := macdLineValues.filterMap id
      if validMacdValues.length < signalPeriod then none
      else
        match calculateManualEMA validMacdValues signalPeriod with
        | none => none
        | some signalLine =>
          some ⟨latestMacdLine, signalLine, latestMacdLine - signalLine⟩

/-- The MACD-line sequence in the spec's words (for fast = 12, slow = 26):
its `i`-th entry is `emaFast(closes[0..i]) - emaSlow(closes[0..i])` wherever
both prefixed EMAs are computable, and `null` elsewhere. -/
def macdLineSpec (closes : List ℚ) : List (Option ℚ) :=
  (List.range closes.length).map (fun i =>
    macdCombine (calculateManualEMA (closes.take (i + 1)) 12)
      (calculateManualEMA (closes.take (i + 1)) 26))

lemma emaSeries_eq (closes : List ℚ) (period : ℕ) (hp : 1 ≤ period) :
    emaSeries closes period
      = (List.range closes.length).map
          (fun i => calculateManualEMA (closes.take (i + 1)) period) := by
  unfold emaSeries
  apply List.map_congr_left
  intro i hi
  rw [List.mem_range] at hi
  simp only
  split
  · rfl
  · rename_i hnot
    have hlen : (closes.take (i + 1)).length < period := by omega
    exact ((ema_none_iff _ _ hp).2 hlen).symm

lemma macdLineValues_eq (closes : List ℚ) :
    List.zipWith macdCombine (emaSeries closes 12) (emaSeries closes 26)
      = macdLineSpec closes := by
  rw [emaSeries_eq closes 12 (by norm_num), emaSeries_eq closes 26 (by norm_num),
    List.zipWith_map, List.zipWith_same]
  rfl

lemma length_filterMap_eq_of_forall_isSome {α β : Type} (f : α → Option β)
    (l : List α) (h : ∀ x ∈ l, (f x).isSome = true) :
    (l.filterMap f).length = l.length := by
  induction l with
  | nil => rfl
  | cons a t ih =>
    obtain ⟨b, hb⟩ := Option.isSome_iff_exists.mp (h a (List.mem_cons_self a t))
    rw [List.filterMap_cons, hb]
    simp only [List.length_cons]
    rw [ih (fun x hx => h x (List.mem_cons_of_mem _ hx))]

lemma macdLineSpec_none_of_lt (closes : List ℚ) (i : ℕ) (hi : i + 1 ≤ closes.length)
    (h26 : i + 1 < 26) :
    macdCombine (calculateManualEMA (closes.take (i + 1)) 12)
      (calculateManualEMA (closes.take (i + 1)) 26) = none := by
  have hlen : (closes.take (i + 1)).length = i + 1 := by
    rw [List.length_take]; omega
  have : calculateManualEMA (closes.take (i + 1)) 26 = none := by
    rw [ema_none_iff _ _ (by norm_num)]; omega
  rw [this]
  cases calculateManualEMA (closes.take (i + 1)) 12 <;> rfl

lemma macdLineSpec_some_of_ge (closes : List ℚ) (i : ℕ) (hi : i + 1 ≤ closes.length)
    (h26 : 26 ≤ i + 1) :
    (macdCombine (calculateManualEMA (closes.take (i + 1)) 12)
      (calculateManualEMA (closes.take (i + 1)) 26)).isSome = true := by
  have hlen : (closes.take (i + 1)).length = i + 1 := by
    rw [List.length_take]; omega
  have h12 : calculateManualEMA (closes.take (i + 1)) 12 ≠ none := by
    rw [ne_eq, ema_none_iff _ _ (by norm_num)]; omega
  have h26' : calculateManualEMA (closes.take (i + 1)) 26 ≠ none := by
    rw [ne_eq, ema_none_iff _ _ (by norm_num)]; omega
  obtain ⟨a, ha⟩ := Option.ne_none_iff_exists'.mp h12
  obtain ⟨b, hb⟩ := Option.ne_none_iff_exists'.mp h26'
  rw [ha, hb]
  rfl

/-- The valid (non-null) suffix of the MACD-line sequence has exactly
`len - 25` entries once `len ≥ 26`. -/
lemma macdLineSpec_filterMap_length (closes : List ℚ) (h : 26 ≤ closes.length) :
    ((macdLineSpec closes).filterMap id).length = closes.length - 25 := by
  unfold macdLineSpec
  rw [List.filterMap_map]
  simp only [Function.id_comp]
  have hsplit : closes.length = 25 + (closes.length - 25) := by omega
  rw [hsplit, List.range_add, List.filterMap_append, List.filterMap_map]
  have h1 : (List.range 25).filterMap
      (fun i => macdCombine (calculateManualEMA (closes.take (i + 1)) 12)
        (calculateManualEMA (closes.take (i + 1)) 26)) = [] := by
    rw [List.filterMap_eq_nil_iff]
    intro i hi
    rw [List.mem_range] at hi
    exact macdLineSpec_none_of_lt closes i (by omega) (by omega)
  rw [h1]
  simp only [List.nil_append]
  rw [length_filterMap_eq_of_forall_isSome]
  · rw [List.length_range]; omega
  · intro j hj
    rw [List.mem_range] at hj
    exact macdLineSpec_some_of_ge closes (25 + j) (by omega) (by omega)

lemma macdLineSpec_getLast (closes : List ℚ) (h : 26 ≤ closes.length) :
    ∃ q : ℚ, (macdLineSpec closes).getLast? = some (some q) := by
  unfold macdLineSpec
  rw [List.getLast?_eq_getElem?]
  rw [List.length_map, List.length_range]
  rw [List.getElem?_map]
  rw [List.getElem?_range (by omega : closes.length - 1 < closes.length)]
  have hs := macdLineSpec_some_of_ge closes (closes.length - 1) (by omega) (by omega)
  obtain ⟨q, hq⟩ := Option.isSome_iff_exists.mp hs
  exact ⟨q, by rw [Option.map_some', hq]⟩

/-- Shared helper: with at least 35 closes, the MACD succeeds and its three
components are given by the MACD-line sequence and its signal EMA. -/
lemma macd_some_of_length (closes : List ℚ) (h : 35 ≤ closes.length) :
    ∃ r : MACDResult, calculateManualMACD closes 12 26 9 = some r ∧
      (macdLineSpec closes).getLast? = some (some r.macd) ∧
      calculateManualEMA ((macdLineSpec closes).filterMap id) 9 = some r.signal ∧
      r.histogram = r.macd - r.signal := by
  have h0 : ¬ closes.length = 0 := by omega
  have hlt : ¬ closes.length < 26 + 9 := by omega
  obtain ⟨q, hq⟩ := macdLineSpec_getLast closes (by omega)
  have hvlen : ((macdLineSpec closes).filterMap id).length = closes.length - 25 :=
    macdLineSpec_filterMap_length closes (by omega)
  have hsig : calculateManualEMA ((macdLineSpec closes).filterMap id) 9 ≠ none := by
    rw [ne_eq, ema_none_iff _ _ (by norm_num)]; omega
  obtain ⟨sig, hsigv⟩ := Option.ne_none_iff_exists'.mp hsig
  refine ⟨⟨q, sig, q - sig⟩, ?_, ?_, ?_, rfl⟩
  · unfold calculateManualMACD
    simp only [h0, hlt, if_false, reduceIte]
    rw [macdLineValues_eq, hq]
    have hnlt : ¬ ((macdLineSpec closes).filterMap id).length < 9 := by omega
    simp only [hnlt, if_false, reduceIte, hsigv]
  · exact hq
  · exact hsigv

/-- C2: with fast = 12, slow = 26, signal = 9, `calculateManualMACD` returns
`null` iff fewer than 35 closes are given; otherwise it returns a triple whose
`macd` is the last value of the MACD-line sequence, whose `signal` is the
seeded-SMA EMA (period 9) of the non-null MACD-line values, and whose
`histogram` equals `macd - signal` exactly. -/
theorem macd_matches_construction (closes : List ℚ) :
    (calculateManualMACD closes 12 26 9 = none ↔ closes.length < 35) ∧
    (35 ≤ closes.length → ∃ r : MACDResult,
      calculateManualMACD closes 12 26 9 = some r ∧
      (macdLineSpec closes).getLast? = some (some r.macd) ∧
      calculateManualEMA ((macdLineSpec closes).filterMap id) 9 = some r.signal ∧
      r.histogram = r.macd - r.signal) := by
  constructor
  · constructor
    · intro hnone
      by_contra hge
      push_neg at hge
      obtain ⟨r, hr, -, -, -⟩ := macd_some_of_length closes hge
      rw [hr] at hnone
      exact Option.noConfusion hnone
    · intro hlt
      unfold calculateManualMACD
      by_cases h0 : closes.length = 0
      · simp [h0]
      · have hlt' : closes.length < 26 + 9 := by omega
        simp [h0, hlt']
  · exact macd_some_of_length closes

/-- C2 witness: instantiated at 35 constant closes. -/
theorem macd_matches_construction_witness :
    (calculateManualMACD (List.replicate 35 (1 : ℚ)) 12 26 9 = none
      ↔ (List.replicate 35 (1 : ℚ)).length < 35) ∧
    (∃ r : MACDResult,
      calculateManualMACD (List.replicate 35 (1 : ℚ)) 12 26 9 = some r ∧
      (macdLineSpec (List.replicate 35 (1 : ℚ))).getLast? = some (some r.macd) ∧
      calculateManualEMA ((macdLineSpec (List.replicate 35 (1 : ℚ))).filterMap id) 9
        = some r.signal ∧
      r.histogram = r.macd - r.signal) :=
  ⟨(macd_matches_construction (List.replicate 35 (1 : ℚ))).1,
    (macd_matches_construction (List.replicate 35 (1 : ℚ))).2 (by decide)⟩

/-! ## Comparators and condition evaluators (ConditionsService)

Two `ConditionsService` variants exist in the repository: a 3-rule one
(`conditions.js`) and a 7-rule one (`polygonService.js`, second document).
JavaScript object keys are modelled by the enumeration `RuleKey`; the
`score` string `"P/T"` is modelled as the pair `(P, T)`; the structured
failure records are modelled by their rule keys. -/

/-- `this.EPSILON = 1e-10`. -/
def EPSILON : ℚ := 1 / 10000000000

/-- The default `percentageTolerance = 0.0001`. -/
def defaultPercentageTolerance : ℚ := 1 / 10000

/-- `isGreaterThan(a, b, tolerance)`: `false` when either operand is
`null`/`undefined`, otherwise `(a - b) > tolerance`. -/
def isGreaterThanTol (a b : Option ℚ) (tolerance : ℚ) : Bool :=
  match a, b with
  | some x, some y => decide (x - y > tolerance)
  | _, _ => false

/-- `isGreaterThan` at its default tolerance `EPSILON`. -/
def isGreaterThan (a b : Option ℚ) : Bool :=
  isGreaterThanTol a b EPSILON

/-- `isGreaterThanWithTolerance(a, b, percentageTolerance)`: `false` when
either operand is `null`/`undefined`, otherwise `(a - b) > |b| * p`. -/
def isGreaterThanWithTolerance (a b : Option ℚ) (percentageTolerance : ℚ) : Bool :=
  match a, b with
  | some x, some y => decide (x - y > |y| * percentageTolerance)
  | _, _ => false

/-- `getMACDHistogram(macdData)`: `null` for a missing object, and
`macdData.histogram || null` otherwise (a JavaScript falsy `0` becomes
`null`). -/
def getMACDHistogram (m : Option MACDResult) : Option ℚ :=
  match m with
  | none => none
  | some t => if t.histogram = 0 then none else some t.histogram

/-- `getMACDValue(macdData)`: `null` for a missing object, and
`macdData.macd || null` otherwise (a JavaScript falsy `0` becomes `null`). -/
def getMACDValue (m : Option MACDResult) : Option ℚ :=
  match m with
  | none => none
  | some t => if t.macd = 0 then none else some t.macd

/-- The indicator bundle fields consumed by the evaluators (the remaining
bundle fields — EMA 12/20/26, LOD, HOD — are never read by either
evaluator and are omitted). -/
structure Indicators where
  ema1m18 : Option ℚ
  ema1m200 : Option ℚ
  ema5m18 : Option ℚ
  ema5m200 : Option ℚ
  vwap1m : Option ℚ
  macd1m : Option MACDResult
  macd5m : Option MACDResult
deriving DecidableEq

/-- The rule keys of the two rule sets. -/
inductive RuleKey
  | macd5mPositive
  | macd1mPositive
  | ema18Above200_1m
  | ema18AboveVwap_1m
  | vwapAboveEma200_1m
  | closeAboveEma18_1m
  | priceAboveVwap
  | ema200AboveEma18_5m
deriving DecidableEq, Repr

/-- `const closePrice = currentPrice || lastCandle?.close`: JavaScript `||`
falls through on any falsy left operand, so both `null`/`undefined` and an
exact `0` yield `lastCandle?.close`. -/
def closePriceOf (currentPrice : Option ℚ) (lastCandleClose : Option ℚ) : Option ℚ :=
  match currentPrice with
  | some p => if p = 0 then lastCandleClose else some p
  | none => lastCandleClose

/-- The verdict object returned by `evaluateConditions`. -/
structure Verdict where
  conditions : List (RuleKey × Bool)
  passedConditions : ℕ
  totalConditions : ℕ
  allConditionsMet : Bool
  failedConditions : List RuleKey
  score : ℕ × ℕ
deriving DecidableEq

/-- The 3-rule `evaluateConditions` of `conditions.js`. -/
def evaluateConditions3 (ind : Indicators)
    (currentPrice lastCandleClose : Option ℚ) : Verdict :=
  let macd5mHistogram := getMACDHistogram ind.macd5m
  let closePrice := closePriceOf currentPrice lastCandleClose
  let conditions : List (RuleKey × Bool) :=
    [(RuleKey.macd5mPositive, isGreaterThan macd5mHistogram (some 0)),
     (RuleKey.ema18Above200_1m,
       isGreaterThanWithTolerance ind.ema1m18 ind.ema1m200 defaultPercentageTolerance),
     (RuleKey.priceAboveVwap,
       isGreaterThanWithTolerance closePrice ind.vwap1m defaultPercentageTolerance)]
  let passedConditions := (conditions.filter (fun kv => kv.2)).length
  let totalConditions := conditions.length
  let allConditionsMet := decide (passedConditions = totalConditions)
  { conditions := conditions
    passedConditions := passedConditions
    totalConditions := totalConditions
    allConditionsMet := allConditionsMet
    failedConditions := (conditions.filter (fun kv => !kv.2)).map (fun kv => kv.1)
    score := (passedConditions, totalConditions) }

/-- The 7-rule `evaluateConditions` of the `polygonService.js` document's
`ConditionsService`. -/
def evaluateConditions7 (ind : Indicators)
    (currentPrice lastCandleClose : Option ℚ) : Verdict :=
  let macd1mValue := getMACDValue ind.macd1m
  let macd5mValue := getMACDValue ind.macd5m
  let closePrice := closePriceOf currentPrice lastCandleClose
  let conditions : List (RuleKey × Bool) :=
    [(RuleKey.macd5mPositive, isGreaterThan macd5mValue (some 0)),
     (RuleKey.macd1mPositive, isGreaterThan macd1mValue (some 0)),
     (RuleKey.ema18Above200_1m,
       isGreaterThanWithTolerance ind.ema1m18 ind.ema1m200 defaultPercentageTolerance),
     (RuleKey.ema18AboveVwap_1m,
       isGreaterThanWithTolerance ind.ema1m18 ind.vwap1m defaultPercentageTolerance),
     (RuleKey.vwapAboveEma200_1m,
       isGreaterThanWithTolerance ind.vwap1m ind.ema1m200 defaultPercentageTolerance),
     (RuleKey.closeAboveEma18_1m,
       isGreaterThanWithTolerance closePrice ind.ema1m18 defaultPercentageTolerance),
     (RuleKey.ema200AboveEma18_5m,
       isGreaterThanWithTolerance ind.ema5m200 ind.ema5m18 defaultPercentageTolerance)]
  let passedConditions := (conditions.filter (fun kv => kv.2)).length
  let totalConditions := conditions.length
  let allConditionsMet := decide (passedConditions = totalConditions)
  { conditions := conditions
    passedConditions := passedConditions
    totalConditions := totalConditions
    allConditionsMet := allConditionsMet
    failedConditions := (conditions.filter (fun kv => !kv.2)).map (fun kv => kv.1)
    score := (passedConditions, totalConditions) }

/-- The running statistics object of a `ConditionsService`. -/
structure Statistics where
  totalEvaluations : ℕ
  totalPassed : ℕ
  conditionCounts : List (RuleKey × ℕ × ℕ)
deriving DecidableEq

/-- The constructor state of the 3-rule service. -/
def initialStatistics3 : Statistics :=
  ⟨0, 0, [(RuleKey.macd5mPositive, 0, 0), (RuleKey.ema18Above200_1m, 0, 0),
    (RuleKey.priceAboveVwap, 0, 0)]⟩

/-- The constructor state of the 7-rule service. -/
def initialStatistics7 : Statistics :=
  ⟨0, 0, [(RuleKey.macd5mPositive, 0, 0), (RuleKey.macd1mPositive, 0, 0),
    (RuleKey.ema18Above200_1m, 0, 0), (RuleKey.ema18AboveVwap_1m, 0, 0),
    (RuleKey.vwapAboveEma200_1m, 0, 0), (RuleKey.closeAboveEma18_1m, 0, 0),
    (RuleKey.ema200AboveEma18_5m, 0, 0)]⟩

/-- `this.statistics.conditionCounts[conditionKey].passed++` (or
`.failed++`): increment the matching entry. -/
def bumpCount (counts : List (RuleKey × ℕ × ℕ)) (key : RuleKey) (pass : Bool) :
    List (RuleKey × ℕ × ℕ) :=
  counts.map (fun e =>
    if e.1 = key then
      (e.1, if pass then (e.2.1 + 1, e.2.2) else (e.2.1, e.2.2 + 1))
    else e)

/-- `updateStatistics(conditions, allConditionsMet)` — identical in both
service variants. -/
def updateStatistics (s : Statistics) (conditions : List (RuleKey × Bool))
    (allConditionsMet : Bool) : Statistics :=
  { totalEvaluations := s.totalEvaluations + 1
    totalPassed := s.totalPassed + (if allConditionsMet then 1 else 0)
    conditionCounts :=
      conditions.foldl (fun acc kv => bumpCount acc kv.1 kv.2) s.conditionCounts }

/-- One stateful `evaluateConditions` call of the 3-rule service: produce the
verdict and update the statistics. -/
def evaluateStep3 (s : Statistics) (ind : Indicators) (p lc : Option ℚ) :
    Verdict × Statistics :=
  let v := evaluateConditions3 ind p lc
  (v, updateStatistics s v.conditions v.allConditionsMet)

/-- One stateful `evaluateConditions` call of the 7-rule service. -/
def evaluateStep7 (s : Statistics) (ind : Indicators) (p lc : Option ℚ) :
    Verdict × Statistics :=
  let v := evaluateConditions7 ind p lc
  (v, updateStatistics s v.conditions v.allConditionsMet)

/-- A sequence of 3-rule evaluations starting from a given statistics state. -/
def runEvaluations3 (inputs : List (Indicators × Option ℚ × Option ℚ))
    (s : Statistics) : Statistics :=
  inputs.foldl (fun acc inp => (evaluateStep3 acc inp.1 inp.2.1 inp.2.2).2) s

/-- A sequence of 7-rule evaluations starting from a given statistics state. -/
def runEvaluations7 (inputs : List (Indicators × Option ℚ × Option ℚ))
    (s : Statistics) : Statistics :=
  inputs.foldl (fun acc inp => (evaluateStep7 acc inp.1 inp.2.1 inp.2.2).2) s

/-- C5: both comparators return `false` (never throw) on a missing operand;
`isGreaterThan` is `false` at `a = b` and `true` at `a = b + 2 EPSILON`;
`isGreaterThanWithTolerance a b p` is `false` whenever `a - b ≤ |b| p` and
`true` whenever `a - b > |b| p + d` for a positive `d`. -/
theorem comparators_null_safe_and_tolerant :
    (∀ b, isGreaterThan none b = false) ∧
    (∀ a, isGreaterThan a none = false) ∧
    (∀ b p, isGreaterThanWithTolerance none b p = false) ∧
    (∀ a p, isGreaterThanWithTolerance a none p = false) ∧
    (∀ a : ℚ, isGreaterThan (some a) (some a) = false) ∧
    (∀ b : ℚ, isGreaterThan (some (b + 2 * EPSILON)) (some b) = true) ∧
    (∀ a b p : ℚ, a - b ≤ |b| * p →
      isGreaterThanWithTolerance (some a) (some b) p = false) ∧
    (∀ a b p d : ℚ, 0 < d → |b| * p + d < a - b →
      isGreaterThanWithTolerance (some a) (some b) p = true) := by
  refine ⟨?_, ?_, ?_, ?_, ?_, ?_, ?_, ?_⟩
  · intro b; cases b <;> rfl
  · intro a; cases a <;> rfl
  · intro b p; cases b <;> rfl
  · intro a p; cases a <;> rfl
  · intro a
    simp only [isGreaterThan, isGreaterThanTol, decide_eq_false_iff_not, not_lt, EPSILON]
    norm_num
  · intro b
    simp only [isGreaterThan, isGreaterThanTol, decide_eq_true_eq, EPSILON]
    norm_num
  · intro a b p h
    simp only [isGreaterThanWithTolerance, decide_eq_false_iff_not, not_lt]
    exact h
  · intro a b p d hd h
    simp only [isGreaterThanWithTolerance, decide_eq_true_eq]
    linarith

/-- C5 witness: the two hypothesis-bearing clauses at `a = b = 1`,
`p = 1/10000` (false) and `a = 2, b = 1, p = 1/10000, d = 1/2` (true). -/
theorem comparators_null_safe_and_tolerant_witness :
    isGreaterThanWithTolerance (some (1 : ℚ)) (some 1) (1 / 10000) = false ∧
    isGreaterThanWithTolerance (some (2 : ℚ)) (some 1) (1 / 10000) = true :=
  ⟨comparators_null_safe_and_tolerant.2.2.2.2.2.2.1 1 1 (1 / 10000) (by norm_num),
   comparators_null_safe_and_tolerant.2.2.2.2.2.2.2 2 1 (1 / 10000) (1 / 2)
     (by norm_num) (by norm_num)⟩

/-- C4: for both rule sets, `passedConditions` counts exactly the rules
mapped to `true`, `totalConditions` is the size of the active rule set (3
resp. 7), `allConditionsMet` holds iff every rule passed, and any rule with a
`null`/missing operand evaluates to `false` (hence is never counted as
passed; the evaluation is a total function, so it never throws). -/
theorem verdict_counts_and_null_rules (ind : Indicators) (p lc : Option ℚ) :
    ((evaluateConditions3 ind p lc).passedConditions
        = ((evaluateConditions3 ind p lc).conditions.filter (fun kv => kv.2)).length ∧
      (evaluateConditions3 ind p lc).totalConditions = 3 ∧
      (evaluateConditions3 ind p lc).totalConditions
        = (evaluateConditions3 ind p lc).conditions.length ∧
      ((evaluateConditions3 ind p lc).allConditionsMet = true ↔
        (evaluateConditions3 ind p lc).passedConditions
          = (evaluateConditions3 ind p lc).totalConditions) ∧
      (ind.macd5m = none →
        (evaluateConditions3 ind p lc).conditions[0]? = some (RuleKey.macd5mPositive, false)) ∧
      (ind.ema1m18 = none ∨ ind.ema1m200 = none →
        (evaluateConditions3 ind p lc).conditions[1]? = some (RuleKey.ema18Above200_1m, false)) ∧
      (closePriceOf p lc = none ∨ ind.vwap1m = none →
        (evaluateConditions3 ind p lc).conditions[2]? = some (RuleKey.priceAboveVwap, false))) ∧
    ((evaluateConditions7 ind p lc).passedConditions
        = ((evaluateConditions7 ind p lc).conditions.filter (fun kv => kv.2)).length ∧
      (evaluateConditions7 ind p lc).totalConditions = 7 ∧
      (evaluateConditions7 ind p lc).totalConditions
        = (evaluateConditions7 ind p lc).conditions.length ∧
      ((evaluateConditions7 ind p lc).allConditionsMet = true ↔
        (evaluateConditions7 ind p lc).passedConditions
          = (evaluateConditions7 ind p lc).totalConditions) ∧
      (ind.macd5m = none →
        (evaluateConditions7 ind p lc).conditions[0]? = some (RuleKey.macd5mPositive, false)) ∧
      (ind.macd1m = none →
        (evaluateConditions7 ind p lc).conditions[1]? = some (RuleKey.macd1mPositive, false)) ∧
      (ind.ema1m18 = none ∨ ind.ema1m200 = none →
        (evaluateConditions7 ind p lc).conditions[2]? = some (RuleKey.ema18Above200_1m, false)) ∧
      (ind.ema1m18 = none ∨ ind.vwap1m = none →
        (evaluateConditions7 ind p lc).conditions[3]? = some (RuleKey.ema18AboveVwap_1m, false)) ∧
      (ind.vwap1m = none ∨ ind.ema1m200 = none →
        (evaluateConditions7 ind p lc).conditions[4]? = some (RuleKey.vwapAboveEma200_1m, false)) ∧
      (closePriceOf p lc = none ∨ ind.ema1m18 = none →
        (evaluateConditions7 ind p lc).conditions[5]? = some (RuleKey.closeAboveEma18_1m, false)) ∧
      (ind.ema5m200 = none ∨ ind.ema5m18 = none →
        (evaluateConditions7 ind p lc).conditions[6]? = some (RuleKey.ema200AboveEma18_5m, false))) := by
  constructor
  · refine ⟨rfl, rfl, rfl, by simp [evaluateConditions3], ?_, ?_, ?_⟩
    · intro h
      simp [evaluateConditions3, h, getMACDHistogram, isGreaterThan, isGreaterThanTol]
    · rintro (h | h) <;>
        simp [evaluateConditions3, h, isGreaterThanWithTolerance]
    · rintro (h | h) <;>
        simp [evaluateConditions3, h, isGreaterThanWithTolerance]
  · refine ⟨rfl, rfl, rfl, by simp [evaluateConditions7], ?_, ?_, ?_, ?_, ?_, ?_, ?_⟩
    · intro h
      simp [evaluateConditions7, h, getMACDValue, isGreaterThan, isGreaterThanTol]
    · intro h
      simp [evaluateConditions7, h, getMACDValue, isGreaterThan, isGreaterThanTol]
    · rintro (h | h) <;>
        simp [evaluateConditions7, h, isGreaterThanWithTolerance]
    · rintro (h | h) <;>
        simp [evaluateConditions7, h, isGreaterThanWithTolerance]
    · rintro (h | h) <;>
        simp [evaluateConditions7, h, isGreaterThanWithTolerance]
    · rintro (h | h) <;>
        simp [evaluateConditions7, h, isGreaterThanWithTolerance]
    · rintro (h | h) <;>
        simp [evaluateConditions7, h, isGreaterThanWithTolerance]

/-- C4 witness: every null-operand clause at the all-`null` bundle. -/
theorem verdict_counts_and_null_rules_witness :
    (evaluateConditions3 ⟨none, none, none, none, none, none, none⟩ none none).conditions[0]?
      = some (RuleKey.macd5mPositive, false) ∧
    (evaluateConditions3 ⟨none, none, none, none, none, none, none⟩ none none).conditions[1]?
      = some (RuleKey.ema18Above200_1m, false) ∧
    (evaluateConditions3 ⟨none, none, none, none, none, none, none⟩ none none).conditions[2]?
      = some (RuleKey.priceAboveVwap, false) ∧
    (evaluateConditions7 ⟨none, none, none, none, none, none, none⟩ none none).conditions[0]?
      = some (RuleKey.macd5mPositive, false) ∧
    (evaluateConditions7 ⟨none, none, none, none, none, none, none⟩ none none).conditions[1]?
      = some (RuleKey.macd1mPositive, false) ∧
    (evaluateConditions7 ⟨none, none, none, none, none, none, none⟩ none none).conditions[2]?
      = some (RuleKey.ema18Above200_1m, false) ∧
    (evaluateConditions7 ⟨none, none, none, none, none, none, none⟩ none none).conditions[3]?
      = some (RuleKey.ema18AboveVwap_1m, false) ∧
    (evaluateConditions7 ⟨none, none, none, none, none, none, none⟩ none none).conditions[4]?
      = some (RuleKey.vwapAboveEma200_1m, false) ∧
    (evaluateConditions7 ⟨none, none, none, none, none, none, none⟩ none none).conditions[5]?
      = some (RuleKey.closeAboveEma18_1m, false) ∧
    (evaluateConditions7 ⟨none, none, none, none, none, none, none⟩ none none).conditions[6]?
      = some (RuleKey.ema200AboveEma18_5m, false) := by
  have t := verdict_counts_and_null_rules ⟨none, none, none, none, none, none, none⟩ none none
  exact ⟨t.1.2.2.2.2.1 rfl, t.1.2.2.2.2.2.1 (Or.inl rfl), t.1.2.2.2.2.2.2 (Or.inl rfl),
    t.2.2.2.2.2.1 rfl, t.2.2.2.2.2.2.1 rfl, t.2.2.2.2.2.2.2.1 (Or.inl rfl),
    t.2.2.2.2.2.2.2.2.1 (Or.inl rfl), t.2.2.2.2.2.2.2.2.2.1 (Or.inl rfl),
    t.2.2.2.2.2.2.2.2.2.2.1 (Or.inl rfl), t.2.2.2.2.2.2.2.2.2.2.2 (Or.inl rfl)⟩

/-- C10: a falsy `currentPrice` — an exact `0` just like `null`/`undefined` —
makes the evaluator fall back to `lastCandle?.close`; the verdict with
`currentPrice = 0` is identical to the verdict with no current price at all,
for both rule sets. -/
theorem zero_current_price_falls_back (ind : Indicators) (lc : Option ℚ) :
    closePriceOf (some 0) lc = lc ∧
    closePriceOf none lc = lc ∧
    evaluateConditions3 ind (some 0) lc = evaluateConditions3 ind none lc ∧
    evaluateConditions7 ind (some 0) lc = evaluateConditions7 ind none lc := by
  refine ⟨by simp [closePriceOf], rfl, ?_, ?_⟩
  · simp [evaluateConditions3, closePriceOf]
  · simp [evaluateConditions7, closePriceOf]

/-- C8: the verdict is a pure function of the indicator data — a second call
on identical data returns an identical verdict regardless of the statistics
state — and two consecutive calls advance `totalEvaluations` by exactly 2 and
`totalPassed` by the number of the two calls whose `allConditionsMet` held. -/
theorem evaluator_deterministic_and_statistics
    (ind : Indicators) (p lc : Option ℚ) (s : Statistics) :
    (evaluateStep7 s ind p lc).1
        = (evaluateStep7 (evaluateStep7 s ind p lc).2 ind p lc).1 ∧
    ((evaluateStep7 (evaluateStep7 s ind p lc).2 ind p lc).2).totalEvaluations
        = s.totalEvaluations + 2 ∧
    ((evaluateStep7 (evaluateStep7 s ind p lc).2 ind p lc).2).totalPassed
        = s.totalPassed
          + ((if (evaluateStep7 s ind p lc).1.allConditionsMet then 1 else 0)
            + (if (evaluateStep7 (evaluateStep7 s ind p lc).2 ind p lc).1.allConditionsMet
                then 1 else 0)) := by
  refine ⟨rfl, ?_, ?_⟩
  · simp [evaluateStep7, updateStatistics]
  · simp only [evaluateStep7, updateStatistics]
    omega

/-! ### Statistics accounting invariant (updateStatistics) -/

lemma bumpCount_eq_of_not_mem (counts : List (RuleKey × ℕ × ℕ)) (key : RuleKey)
    (b : Bool) (h : key ∉ counts.map (fun e => e.1)) :
    bumpCount counts key b = counts := by
  unfold bumpCount
  have : ∀ e ∈ counts, (if e.1 = key then
      (e.1, if b then (e.2.1 + 1, e.2.2) else (e.2.1, e.2.2 + 1)) else e) = e := by
    intro e he
    have : e.1 ≠ key := by
      intro hk
      exact h (hk ▸ List.mem_map_of_mem (fun e => e.1) he)
    simp [this]
  rw [List.map_congr_left this]
  simp

lemma foldl_bump_cons (conds : List (RuleKey × Bool)) :
    ∀ (e : RuleKey × ℕ × ℕ) (ct : List (RuleKey × ℕ × ℕ)),
    e.1 ∉ conds.map (fun kv => kv.1) →
    conds.foldl (fun acc kv => bumpCount acc kv.1 kv.2) (e :: ct)
      = e :: conds.foldl (fun acc kv => bumpCount acc kv.1 kv.2) ct := by
  induction conds with
  | nil => intro e ct _; rfl
  | cons kv rest ih =>
    intro e ct he
    simp only [List.map_cons, List.mem_cons, not_or] at he
    have hne : e.1 ≠ kv.1 := he.1
    simp only [List.foldl_cons]
    have hb : bumpCount (e :: ct) kv.1 kv.2
        = e :: bumpCount ct kv.1 kv.2 := by
      unfold bumpCount
      simp [hne]
    rw [hb, ih e (bumpCount ct kv.1 kv.2) he.2]

/-- Folding `bumpCount` over a duplicate-free condition list whose keys agree
with the counters' keys preserves the key list and advances every counter's
`passed + failed` total by exactly one. -/
lemma foldl_bump_sums (conds : List (RuleKey × Bool)) :
    ∀ (counts : List (RuleKey × ℕ × ℕ)),
    counts.map (fun e => e.1) = conds.map (fun kv => kv.1) →
    (conds.map (fun kv => kv.1)).Nodup →
    ((conds.foldl (fun acc kv => bumpCount acc kv.1 kv.2) counts).map (fun e => e.1)
        = counts.map (fun e => e.1)) ∧
    (∀ n : ℕ, (∀ e ∈ counts, e.2.1 + e.2.2 = n) →
      ∀ e ∈ conds.foldl (fun acc kv => bumpCount acc kv.1 kv.2) counts,
        e.2.1 + e.2.2 = n + 1) := by
  induction conds with
  | nil =>
    intro counts hkeys _
    have : counts = [] := by
      cases counts with
      | nil => rfl
      | cons a t => simp at hkeys
    subst this
    exact ⟨rfl, fun n _ e he => absurd he (List.not_mem_nil e)⟩
  | cons kv rest ih =>
    intro counts hkeys hnodup
    cases counts with
    | nil => simp at hkeys
    | cons e0 ct =>
      simp only [List.map_cons, List.cons.injEq] at hkeys
      obtain ⟨hk0, hkt⟩ := hkeys
      simp only [List.map_cons, List.nodup_cons] at hnodup
      obtain ⟨hknotin, hnodup'⟩ := hnodup
      have hct : kv.1 ∉ ct.map (fun e => e.1) := by rw [hkt]; exact hknotin
      have hb : bumpCount (e0 :: ct) kv.1 kv.2
          = (e0.1, if kv.2 then (e0.2.1 + 1, e0.2.2) else (e0.2.1, e0.2.2 + 1))
            :: ct := by
        unfold bumpCount
        simp only [List.map_cons, hk0, if_true, reduceIte]
        rw [show ct.map (fun e => if e.1 = kv.1 then
            (e.1, if kv.2 then (e.2.1 + 1, e.2.2) else (e.2.1, e.2.2 + 1)) else e)
          = bumpCount ct kv.1 kv.2 from rfl]
        rw [bumpCount_eq_of_not_mem ct kv.1 kv.2 hct]
      have hhead : (e0.1, if kv.2 then (e0.2.1 + 1, e0.2.2)
          else (e0.2.1, e0.2.2 + 1)).1 ∉ rest.map (fun kv => kv.1) := by
        simpa [hk0] using hknotin
      simp only [List.foldl_cons, hb]
      rw [foldl_bump_cons rest _ ct hhead]
      obtain ⟨ihkeys, ihsums⟩ := ih ct hkt hnodup'
      constructor
      · simp only [List.map_cons, ihkeys]
      · intro n hn e he
        rcases List.mem_cons.mp he with rfl | htail
        · have := hn e0 (List.mem_cons_self e0 ct)
          cases kv.2 <;> simp <;> omega
        · exact ihsums n (fun x hx => hn x (List.mem_cons_of_mem e0 hx)) e htail

/-- The statistics invariant of a `ConditionsService` with counter keys
`keys`. -/
def StatsInv (keys : List RuleKey) (s : Statistics) : Prop :=
  s.conditionCounts.map (fun e => e.1) = keys ∧
  (∀ e ∈ s.conditionCounts, e.2.1 + e.2.2 = s.totalEvaluations) ∧
  s.totalPassed ≤ s.totalEvaluations

/-- The 3-rule set's keys, in declaration order. -/
def keys3 : List RuleKey :=
  [RuleKey.macd5mPositive, RuleKey.ema18Above200_1m, RuleKey.priceAboveVwap]

/-- The 7-rule set's keys, in declaration order. -/
def keys7 : List RuleKey :=
  [RuleKey.macd5mPositive, RuleKey.macd1mPositive, RuleKey.ema18Above200_1m,
   RuleKey.ema18AboveVwap_1m, RuleKey.vwapAboveEma200_1m,
   RuleKey.closeAboveEma18_1m, RuleKey.ema200AboveEma18_5m]

lemma step3_preserves_inv (s : Statistics) (ind : Indicators) (p lc : Option ℚ)
    (h : StatsInv keys3 s) : StatsInv keys3 (evaluateStep3 s ind p lc).2 := by
  obtain ⟨hkeys, hsums, hpass⟩ := h
  have hckeys : (evaluateConditions3 ind p lc).conditions.map (fun kv => kv.1)
      = keys3 := rfl
  have hnodup : ((evaluateConditions3 ind p lc).conditions.map
      (fun kv => kv.1)).Nodup := by
    rw [hckeys]; decide
  obtain ⟨hk, hs⟩ := foldl_bump_sums (evaluateConditions3 ind p lc).conditions
    s.conditionCounts (by rw [hkeys, hckeys]) hnodup
  have hstep : (evaluateStep3 s ind p lc).2 =
      ⟨s.totalEvaluations + 1,
        s.totalPassed + (if (evaluateConditions3 ind p lc).allConditionsMet then 1 else 0),
        (evaluateConditions3 ind p lc).conditions.foldl
          (fun acc kv => bumpCount acc kv.1 kv.2) s.conditionCounts⟩ := rfl
  rw [hstep]
  refine ⟨?_, ?_, ?_⟩
  · rw [hk, hkeys]
  · intro e he
    exact hs s.totalEvaluations hsums e he
  · cases (evaluateConditions3 ind p lc).allConditionsMet <;> simp <;> omega


lemma step7_preserves_inv (s : Statistics) (ind : Indicators) (p lc : Option ℚ)
    (h : StatsInv keys7 s) : StatsInv keys7 (evaluateStep7 s ind p lc).2 := by
  obtain ⟨hkeys, hsums, hpass⟩ := h
  have hckeys : (evaluateConditions7 ind p lc).conditions.map (fun kv => kv.1)
      = keys7 := rfl
  have hnodup : ((evaluateConditions7 ind p lc).conditions.map
      (fun kv => kv.1)).Nodup := by
    rw [hckeys]; decide
  obtain ⟨hk, hs⟩ := foldl_bump_sums (evaluateConditions7 ind p lc).conditions
    s.conditionCounts (by rw [hkeys, hckeys]) hnodup
  have hstep : (evaluateStep7 s ind p lc).2 =
      ⟨s.totalEvaluations + 1,
        s.totalPassed + (if (evaluateConditions7 ind p lc).allConditionsMet then 1 else 0),
        (evaluateConditions7 ind p lc).conditions.foldl
          (fun acc kv => bumpCount acc kv.1 kv.2) s.conditionCounts⟩ := rfl
  rw [hstep]
  refine ⟨?_, ?_, ?_⟩
  · rw [hk, hkeys]
  · intro e he
    exact hs s.totalEvaluations hsums e he
  · cases (evaluateConditions7 ind p lc).allConditionsMet <;> simp <;> omega

lemma runEvaluations3_inv (inputs : List (Indicators × Option ℚ × Option ℚ)) :
    ∀ s : Statistics, StatsInv keys3 s → StatsInv keys3 (runEvaluations3 inputs s) := by
  induction inputs with
  | nil => intro s h; exact h
  | cons inp rest ih =>
    intro s h
    exact ih _ (step3_preserves_inv s inp.1 inp.2.1 inp.2.2 h)

lemma runEvaluations7_inv (inputs : List (Indicators × Option ℚ × Option ℚ)) :
    ∀ s : Statistics, StatsInv keys7 s → StatsInv keys7 (runEvaluations7 inputs s) := by
  induction inputs with
  | nil => intro s h; exact h
  | cons inp rest ih =>
    intro s h
    exact ih _ (step7_preserves_inv s inp.1 inp.2.1 inp.2.2 h)

/-- C9: starting from a fresh service (no reset), after any sequence of
evaluations the per-rule counters of the active rule set each total exactly
`totalEvaluations` — every evaluation bumps every rule's counter exactly
once — the key set is unchanged, and `totalPassed ≤ totalEvaluations`; for
both the 3-rule and the 7-rule service. -/
theorem statistics_counters_consistent
    (inputs : List (Indicators × Option ℚ × Option ℚ)) :
    ((runEvaluations3 inputs initialStatistics3).conditionCounts.map (fun e => e.1)
        = keys3 ∧
      (∀ e ∈ (runEvaluations3 inputs initialStatistics3).conditionCounts,
        e.2.1 + e.2.2 = (runEvaluations3 inputs initialStatistics3).totalEvaluations) ∧
      (runEvaluations3 inputs initialStatistics3).totalPassed
        ≤ (runEvaluations3 inputs initialStatistics3).totalEvaluations) ∧
    ((runEvaluations7 inputs initialStatistics7).conditionCounts.map (fun e => e.1)
        = keys7 ∧
      (∀ e ∈ (runEvaluations7 inputs initialStatistics7).conditionCounts,
        e.2.1 + e.2.2 = (runEvaluations7 inputs initialStatistics7).totalEvaluations) ∧
      (runEvaluations7 inputs initialStatistics7).totalPassed
        ≤ (runEvaluations7 inputs initialStatistics7).totalEvaluations) := by
  constructor
  · exact runEvaluations3_inv inputs initialStatistics3 ⟨rfl, by decide, by decide⟩
  · exact runEvaluations7_inv inputs initialStatistics7 ⟨rfl, by decide, by decide⟩

/-- C9 witness: after one evaluation on an all-`null` bundle, the first
counter of the fresh 3-rule service reads `(passed, failed) = (0, 1)` and
`0 + 1` equals the one recorded evaluation. -/
theorem statistics_counters_consistent_witness :
    ((RuleKey.macd5mPositive, (0 : ℕ), (1 : ℕ))).2.1
        + ((RuleKey.macd5mPositive, (0 : ℕ), (1 : ℕ))).2.2
      = (runEvaluations3 [(⟨none, none, none, none, none, none, none⟩, none, none)]
          initialStatistics3).totalEvaluations ∧
    ((RuleKey.macd5mPositive, (0 : ℕ), (1 : ℕ))).2.1
        + ((RuleKey.macd5mPositive, (0 : ℕ), (1 : ℕ))).2.2
      = (runEvaluations7 [(⟨none, none, none, none, none, none, none⟩, none, none)]
          initialStatistics7).totalEvaluations :=
  ⟨(statistics_counters_consistent
      [(⟨none, none, none, none, none, none, none⟩, none, none)]).1.2.1
    (RuleKey.macd5mPositive, 0, 1) (by decide),
   (statistics_counters_consistent
      [(⟨none, none, none, none, none, none, none⟩, none, none)]).2.2.1
    (RuleKey.macd5mPositive, 0, 1) (by decide)⟩

/-! ## Historical data acquisition (processAlertNormally, server document)

The adaptive fetch loop: up to `maxAttempts = 4` attempts over widening
lookback windows (10→15→20→30 days, modelled by indexing the provider by the
attempt number), session filtering to 13:30–20:00 UTC, the two acceptance
paths, and the post-loop sufficiency check
`candles1m.length < 200 || candles5m.length < 50 → null`.  Candle timestamps
are modelled in minutes since an epoch; the `usedMarketHoursOnly` flag is
only logged and is omitted. -/

/-- An OHLCV bar, reduced to the fields the acquisition loop reads. -/
structure Candle where
  timestamp : ℕ
  close : ℚ
deriving DecidableEq

/-- `marketStartUTC = 13*60 + 30`. -/
def marketStartUTC : ℕ := 13 * 60 + 30

/-- `marketEndUTC = 20*60`. -/
def marketEndUTC : ℕ := 20 * 60

/-- The session predicate of the candle filter:
`utcTimeInMinutes >= marketStartUTC && utcTimeInMinutes < marketEndUTC`. -/
def isMarketHoursCandle (c : Candle) : Bool :=
  let utcTimeInMinutes := c.timestamp % 1440
  decide (marketStartUTC ≤ utcTimeInMinutes ∧ utcTimeInMinutes < marketEndUTC)

/-- `candles.filter(...)` with the session predicate. -/
def filterMarketHours (l : List Candle) : List Candle :=
  l.filter isMarketHoursCandle

/-- The fetch-and-test `while` loop of `processAlertNormally`, structurally
recursing on the remaining attempts (`remaining = maxAttempts - attemptCount`
starts at 4).  `fetch a` is the provider's response on attempt `a`; `prev`
holds the candles left in scope from the previous iteration, which the
post-loop code sees when the loop exhausts its attempts without a break. -/
def acquisitionLoop (fetch : ℕ → List Candle × List Candle) :
    ℕ → ℕ → List Candle × List Candle → Option (List Candle × List Candle)
  | 0, _, prev => some prev
  | remaining + 1, attemptCount, _ =>
    let fetched := fetch attemptCount
    if fetched.1.length = 0 then none
    else
      let marketHours1m := filterMarketHours fetched.1
      let marketHours5m := filterMarketHours fetched.2
      if 200 ≤ marketHours1m.length ∧ 50 ≤ marketHours5m.length then
        some (marketHours1m, marketHours5m)
      else if 200 ≤ fetched.1.length ∧ attemptCount = 3 then
        some fetched
      else
        acquisitionLoop fetch remaining (attemptCount + 1) fetched

/-- The acquisition phase of `processAlertNormally`: run the loop (returning
`null` from inside it aborts), then apply the post-loop sufficiency check
`candles1m.length < 200 || candles5m.length < 50 → return null`. -/
def processTickerData (fetch : ℕ → List Candle × List Candle) :
    Option (List Candle × List Candle) :=
  match acquisitionLoop fetch 4 0 ([], []) with
  | none => none
  | some candles =>
    if candles.1.length < 200 ∨ candles.2.length < 50 then none
    else some candles

lemma acquisitionLoop_succ (fetch : ℕ → List Candle × List Candle) (r a : ℕ)
    (prev : List Candle × List Candle) :
    acquisitionLoop fetch (r + 1) a prev =
      if (fetch a).1.length = 0 then none
      else if 200 ≤ (filterMarketHours (fetch a).1).length ∧
          50 ≤ (filterMarketHours (fetch a).2).length then
        some (filterMarketHours (fetch a).1, filterMarketHours (fetch a).2)
      else if 200 ≤ (fetch a).1.length ∧ a = 3 then some (fetch a)
      else acquisitionLoop fetch r (a + 1) (fetch a) := rfl

/-- A provider whose fine-timeframe data is plentiful but entirely outside
market hours, and whose coarse-timeframe data is empty, on every attempt. -/
def lowLiquidityFetch : ℕ → List Candle × List Candle :=
  fun _ => (List.replicate 200 ⟨0, 1⟩, [])

set_option maxRecDepth 8000 in
/-- C3 counterexample: on the final attempt the session-filtered acceptance
test fails while the unfiltered fine count is 200 ≥ 200, so the loop accepts
the unfiltered sequences — yet acquisition still fails (`null`), because the
post-loop check also requires 50 unfiltered coarse candles.  "No further
condition" is false. -/
theorem acquisition_unfiltered_counterexample :
    (lowLiquidityFetch 3).1.length = 200 ∧
    ¬ (200 ≤ (filterMarketHours (lowLiquidityFetch 3).1).length ∧
        50 ≤ (filterMarketHours (lowLiquidityFetch 3).2).length) ∧
    processTickerData lowLiquidityFetch = none :=
  ⟨by decide, by decide, by decide⟩

/-- C3 (amended): if the run reaches the final (fourth) attempt — the first
three attempts fetch non-empty fine data and fail the session-filtered
acceptance test — and on the final attempt the filtered test fails but the
unfiltered fine count is ≥ 200 AND the unfiltered coarse count is ≥ 50 (the
post-loop sufficiency check), then the unfiltered sequences are accepted and
acquisition succeeds. -/
theorem acquisition_final_attempt_unfiltered
    (fetch : ℕ → List Candle × List Candle)
    (hprev : ∀ a, a < 3 → (fetch a).1.length ≠ 0 ∧
      ¬ (200 ≤ (filterMarketHours (fetch a).1).length ∧
          50 ≤ (filterMarketHours (fetch a).2).length))
    (hne : (fetch 3).1.length ≠ 0)
    (hfiltfail : ¬ (200 ≤ (filterMarketHours (fetch 3).1).length ∧
        50 ≤ (filterMarketHours (fetch 3).2).length))
    (hfine : 200 ≤ (fetch 3).1.length)
    (hcoarse : 50 ≤ (fetch 3).2.length) :
    processTickerData fetch = some (fetch 3) := by
  have step : ∀ a, a < 3 → ∀ (r : ℕ) (prev : List Candle × List Candle),
      acquisitionLoop fetch (r + 1) a prev
        = acquisitionLoop fetch r (a + 1) (fetch a) := by
    intro a ha r prev
    rw [acquisitionLoop_succ, if_neg (hprev a ha).1, if_neg (hprev a ha).2,
      if_neg (fun h => absurd h.2 (by omega))]
  have hloop : acquisitionLoop fetch 4 0 ([], []) = some (fetch 3) := by
    calc acquisitionLoop fetch 4 0 ([], [])
        = acquisitionLoop fetch 3 1 (fetch 0) := step 0 (by omega) 3 ([], [])
      _ = acquisitionLoop fetch 2 2 (fetch 1) := step 1 (by omega) 2 (fetch 0)
      _ = acquisitionLoop fetch 1 3 (fetch 2) := step 2 (by omega) 1 (fetch 1)
      _ = some (fetch 3) := by
          rw [acquisitionLoop_succ, if_neg hne, if_neg hfiltfail,
            if_pos ⟨hfine, rfl⟩]
  unfold processTickerData
  rw [hloop]
  exact if_neg (by rw [not_or]; exact ⟨by omega, by omega⟩)

/-- A provider returning 200 pre-market fine candles and 50 pre-market coarse
candles on every attempt. -/
def premarketOnlyFetch : ℕ → List Candle × List Candle :=
  fun _ => (List.replicate 200 ⟨0, 1⟩, List.replicate 50 ⟨0, 1⟩)

set_option maxRecDepth 8000 in
/-- C3 witness: with `premarketOnlyFetch` the filtered test always fails, and
on the final attempt the unfiltered sequences are accepted. -/
theorem acquisition_final_attempt_unfiltered_witness :
    processTickerData premarketOnlyFetch = some (premarketOnlyFetch 3) := by
  apply acquisition_final_attempt_unfiltered
  · intro a ha
    constructor
    · show (List.replicate 200 (⟨0, 1⟩ : Candle)).length ≠ 0
      decide
    · show ¬ (200 ≤ (filterMarketHours (List.replicate 200 (⟨0, 1⟩ : Candle))).length ∧
          50 ≤ (filterMarketHours (List.replicate 50 (⟨0, 1⟩ : Candle))).length)
      decide
  · show (List.replicate 200 (⟨0, 1⟩ : Candle)).length ≠ 0
    decide
  · show ¬ (200 ≤ (filterMarketHours (List.replicate 200 (⟨0, 1⟩ : Candle))).length ∧
        50 ≤ (filterMarketHours (List.replicate 50 (⟨0, 1⟩ : Candle))).length)
    decide
  · show 200 ≤ (List.replicate 200 (⟨0, 1⟩ : Candle)).length
    decide
  · show 50 ≤ (List.replicate 50 (⟨0, 1⟩ : Candle)).length
    decide
